import Mathlib

/-!
# Verification of the tenpy symmetry / matrix-operation core

Shallow embedding of `tenpy/linalg/symmetries/groups.py` and
`tenpy/linalg/matrix_operations.py`.  Python's dynamic values are modelled by
`PyVal`, raised exceptions by `Except PyErr`.  Each definition mirrors the
corresponding Python function; comments cite the source lines.
-/

/-- Kinds of Python exceptions raised by the embedded code. -/
inductive PyErr where
  | typeError
  | valueError
  | zeroDivisionError
  | nameError
  | indexError
  | assertionError
deriving DecidableEq, Repr

/-- Dynamic Python values, as far as the symmetry code needs them:
`None`, `int`, `str` and `list`. -/
inductive PyVal where
  | none : PyVal
  | int : Int → PyVal
  | str : String → PyVal
  | list : List PyVal → PyVal

mutual

/-- Decidable equality of `PyVal` (Python `==`, which is structural on these
value kinds and never throws). -/
def PyVal.decEq : (a b : PyVal) → Decidable (a = b)
  | .none, .none => .isTrue rfl
  | .none, .int _ => .isFalse (fun h => nomatch h)
  | .none, .str _ => .isFalse (fun h => nomatch h)
  | .none, .list _ => .isFalse (fun h => nomatch h)
  | .int _, .none => .isFalse (fun h => nomatch h)
  | .int m, .int n =>
    if h : m = n then .isTrue (h ▸ rfl)
    else .isFalse (fun hh => by cases hh; exact h rfl)
  | .int _, .str _ => .isFalse (fun h => nomatch h)
  | .int _, .list _ => .isFalse (fun h => nomatch h)
  | .str _, .none => .isFalse (fun h => nomatch h)
  | .str _, .int _ => .isFalse (fun h => nomatch h)
  | .str s, .str t =>
    if h : s = t then .isTrue (h ▸ rfl)
    else .isFalse (fun hh => by cases hh; exact h rfl)
  | .str _, .list _ => .isFalse (fun h => nomatch h)
  | .list _, .none => .isFalse (fun h => nomatch h)
  | .list _, .int _ => .isFalse (fun h => nomatch h)
  | .list _, .str _ => .isFalse (fun h => nomatch h)
  | .list xs, .list ys =>
    match PyVal.decEqList xs ys with
    | .isTrue h => .isTrue (h ▸ rfl)
    | .isFalse h => .isFalse (fun hh => by cases hh; exact h rfl)

/-- Decidable equality of lists of `PyVal`. -/
def PyVal.decEqList : (xs ys : List PyVal) → Decidable (xs = ys)
  | [], [] => .isTrue rfl
  | [], _ :: _ => .isFalse (fun h => nomatch h)
  | _ :: _, [] => .isFalse (fun h => nomatch h)
  | x :: xs, y :: ys =>
    match PyVal.decEq x y with
    | .isFalse h => .isFalse (fun hh => by cases hh; exact h rfl)
    | .isTrue h =>
      match PyVal.decEqList xs ys with
      | .isTrue h2 => .isTrue (h ▸ h2 ▸ rfl)
      | .isFalse h2 => .isFalse (fun hh => by cases hh; exact h2 rfl)

end

instance : DecidableEq PyVal := PyVal.decEq

/-- Iterating a Python value: lists yield their elements, strings yield their
one-character substrings, everything else raises `TypeError`.  `len(a)` and
`zip(..., a)` and `itertools.product(a, ...)` all go through this. -/
def pyIter : PyVal → Except PyErr (List PyVal)
  | .list xs => .ok xs
  | .str s => .ok (s.toList.map fun c => .str (String.singleton c))
  | _ => .error .typeError

/-- Python `a + b` on the modelled values. -/
def pyAdd : PyVal → PyVal → Except PyErr PyVal
  | .int m, .int n => .ok (.int (m + n))
  | .str s, .str t => .ok (.str (s ++ t))
  | .list xs, .list ys => .ok (.list (xs ++ ys))
  | _, _ => .error .typeError

/-- Python `a % q` for a non-negative integer literal `q`.  On ints this is
floored modulo (which for `q > 0` agrees with Lean's `Int.emod`); `% 0` raises
`ZeroDivisionError`; on non-ints it raises `TypeError`. -/
def pyMod (a : PyVal) (q : Nat) : Except PyErr PyVal :=
  match a with
  | .int n => if q = 0 then .error .zeroDivisionError else .ok (.int (n % (q : Int)))
  | _ => .error .typeError

/-- Python unary `-a`. -/
def pyNeg : PyVal → Except PyErr PyVal
  | .int n => .ok (.int (-n))
  | _ => .error .typeError

/-- Python `list(range(start, stop, 2))`. -/
def pyRange2 (start stop : Int) : List Int :=
  if start < stop then start :: pyRange2 (start + 2) stop else []
termination_by (stop - start).toNat
decreasing_by simp_wf; omega

/-- `itertools.product` of pre-materialised argument lists: the cartesian
product in lexicographic order (first argument varies slowest). -/
def listProduct : List (List PyVal) → List (List PyVal)
  | [] => [[]]
  | xs :: rest => xs.foldr (fun x acc => (listProduct rest).map (fun t => x :: t) ++ acc) []

/-- `FusionStyle` enum, groups.py lines 12-15. -/
inductive FusionStyle where
  | single
  | multiple_unique
  | general
deriving DecidableEq, Repr

/-- The numeric `value` of each `FusionStyle` member. -/
def FusionStyle.value : FusionStyle → Nat
  | .single => 0
  | .multiple_unique => 10
  | .general => 20

/-- `BraidingStyle` enum, groups.py lines 18-22. -/
inductive BraidingStyle where
  | bosonic
  | fermionic
  | anyonic
  | no_braiding
deriving DecidableEq, Repr

/-- The numeric `value` of each `BraidingStyle` member. -/
def BraidingStyle.value : BraidingStyle → Nat
  | .bosonic => 0
  | .fermionic => 10
  | .anyonic => 20
  | .no_braiding => 30

/-- The closed set of `Symmetry` subclasses defined in groups.py.
`zN N` is `ZNSymmetry(N)` (a `QmodGroup` with `qmod = N`), `u1` is
`U1Symmetry()` (a `QmodGroup` with `qmod = 1`). -/
inductive Symmetry where
  | noSymmetry
  | zN (N : Nat)
  | u1
  | su2
  | fermionParity
  | productSymmetry (factors : List Symmetry)

/-- The `qmod` attribute of a `QmodGroup`: `N` for `ZNSymmetry(N)`,
`1` for `U1Symmetry` (groups.py lines 201-204, 218-223, 234-235). -/
def QmodGroup.qmodOf (N : Nat) : Nat := N

/-- `QmodGroup.is_valid_sector`, groups.py lines 206-207:
`isinstance(a, int) and (self.qmod == 1 or 0 <= a < self.qmod)`. -/
def QmodGroup.is_valid_sector (qmod : Nat) : PyVal → Bool
  | .int n => qmod == 1 || (decide (0 ≤ n) && decide (n < (qmod : Int)))
  | _ => false

/-- `QmodGroup.fusion_outcomes`, groups.py lines 209-210:
`return [(a + b) % self.qmod]`. -/
def QmodGroup.fusion_outcomes (qmod : Nat) (a b : PyVal) : Except PyErr PyVal :=
  match pyAdd a b with
  | .error e => .error e
  | .ok s =>
    match pyMod s qmod with
    | .error e => .error e
    | .ok r => .ok (.list [r])

/-- `QmodGroup.dual_sector`, groups.py lines 212-213:
`return (-a) % self.qmod`. -/
def QmodGroup.dual_sector (qmod : Nat) (a : PyVal) : Except PyErr PyVal :=
  match pyNeg a with
  | .error e => .error e
  | .ok m => pyMod m qmod

/-- `SU2Symmetry.is_valid_sector`, groups.py lines 251-252:
`isinstance(a, int) and a >= 0`. -/
def SU2Symmetry.is_valid_sector : PyVal → Bool
  | .int n => decide (0 ≤ n)
  | _ => false

/-- `SU2Symmetry.fusion_outcomes`, groups.py lines 254-256:
`return list(range(abs(a - b), a + b + 2, 2))`. -/
def SU2Symmetry.fusion_outcomes (a b : PyVal) : Except PyErr PyVal :=
  match a, b with
  | .int m, .int n =>
    .ok (.list ((pyRange2 ((m - n).natAbs : Int) (m + n + 2)).map PyVal.int))
  | _, _ => .error .typeError

/-- `FermionParity.is_valid_sector`, groups.py lines 280-281: `a in [0, 1]`. -/
def FermionParity.is_valid_sector (a : PyVal) : Bool :=
  decide (a = PyVal.int 0) || decide (a = PyVal.int 1)

/-- `FermionParity.fusion_outcomes`, groups.py lines 283-286:
`return int(a != b)` — note that this is a bare integer, not a list. -/
def FermionParity.fusion_outcomes (a b : PyVal) : Except PyErr PyVal :=
  .ok (.int (if a = b then 0 else 1))

mutual

/-- `is_valid_sector` of each `Symmetry` subclass.  The `ProductSymmetry` case
is groups.py lines 139-146: `len(a)` is evaluated *outside* the
`try`/`except TypeError` block, the `all(...)` over `zip(self.factors, a)`
inside it. -/
def Symmetry.is_valid_sector : Symmetry → PyVal → Except PyErr Bool
  | .noSymmetry, a => .ok (decide (a = PyVal.none))
  | .zN N, a => .ok (QmodGroup.is_valid_sector (QmodGroup.qmodOf N) a)
  | .u1, a => .ok (QmodGroup.is_valid_sector 1 a)
  | .su2, a => .ok (SU2Symmetry.is_valid_sector a)
  | .fermionParity, a => .ok (FermionParity.is_valid_sector a)
  | .productSymmetry factors, a =>
    match pyIter a with
    | .error e => .error e
    | .ok xs =>
      if xs.length ≠ factors.length then .ok false
      else
        match validList factors xs with
        | .error .typeError => .ok false
        | .error e => .error e
        | .ok b => .ok b

/-- `all(f.is_valid_sector(b) for f, b in zip(self.factors, a))`:
short-circuiting conjunction over the zipped lists. -/
def validList : List Symmetry → List PyVal → Except PyErr Bool
  | f :: fs, x :: xs =>
    match Symmetry.is_valid_sector f x with
    | .error e => .error e
    | .ok true => validList fs xs
    | .ok false => .ok false
  | _, _ => .ok true

end

/-- `itertools.product(*all_outcomes)` converts each argument to a tuple,
raising `TypeError` at the first non-iterable argument. -/
def iterAll : List PyVal → Except PyErr (List (List PyVal))
  | [] => .ok []
  | x :: xs =>
    match pyIter x with
    | .error e => .error e
    | .ok l =>
      match iterAll xs with
      | .error e => .error e
      | .ok ls => .ok (l :: ls)

mutual

/-- `fusion_outcomes` of each `Symmetry` subclass.  The `ProductSymmetry` case
is groups.py lines 148-151: per-factor outcomes over `zip(self.factors, a, b)`,
then `[list(combination) for combination in product(*all_outcomes)]`. -/
def Symmetry.fusion_outcomes : Symmetry → PyVal → PyVal → Except PyErr PyVal
  | .noSymmetry, _, _ => .ok (.list [.none])
  | .zN N, a, b => QmodGroup.fusion_outcomes (QmodGroup.qmodOf N) a b
  | .u1, a, b => QmodGroup.fusion_outcomes 1 a b
  | .su2, a, b => SU2Symmetry.fusion_outcomes a b
  | .fermionParity, a, b => FermionParity.fusion_outcomes a b
  | .productSymmetry factors, a, b =>
    match pyIter a with
    | .error e => .error e
    | .ok xs =>
      match pyIter b with
      | .error e => .error e
      | .ok ys =>
        match fusionList factors xs ys with
        | .error e => .error e
        | .ok outs =>
          match iterAll outs with
          | .error e => .error e
          | .ok outLists => .ok (.list ((listProduct outLists).map PyVal.list))

/-- The per-factor fusion outcomes
`(f.fusion_outcomes(a_f, b_f) for f, a_f, b_f in zip(self.factors, a, b))`. -/
def fusionList : List Symmetry → List PyVal → List PyVal → Except PyErr (List PyVal)
  | f :: fs, x :: xs, y :: ys =>
    match Symmetry.fusion_outcomes f x y with
    | .error e => .error e
    | .ok o =>
      match fusionList fs xs ys with
      | .error e => .error e
      | .ok os => .ok (o :: os)
  | _, _, _ => .ok []

end

mutual

/-- `dual_sector` of each `Symmetry` subclass.  The `ProductSymmetry` case is
groups.py lines 165-166: `[f.dual_sector(a_f) for f, a_f in zip(self.factors, a)]`. -/
def Symmetry.dual_sector : Symmetry → PyVal → Except PyErr PyVal
  | .noSymmetry, _ => .ok .none
  | .zN N, a => QmodGroup.dual_sector (QmodGroup.qmodOf N) a
  | .u1, a => QmodGroup.dual_sector 1 a
  | .su2, a => .ok a
  | .fermionParity, a => .ok a
  | .productSymmetry factors, a =>
    match pyIter a with
    | .error e => .error e
    | .ok xs =>
      match dualList factors xs with
      | .error e => .error e
      | .ok ys => .ok (.list ys)

/-- The zipped list comprehension inside `ProductSymmetry.dual_sector`. -/
def dualList : List Symmetry → List PyVal → Except PyErr (List PyVal)
  | f :: fs, x :: xs =>
    match Symmetry.dual_sector f x with
    | .error e => .error e
    | .ok y =>
      match dualList fs xs with
      | .error e => .error e
      | .ok ys => .ok (y :: ys)
  | _, _ => .ok []

end

/-- Python `max(iterable, key=...)`: raises `ValueError` on an empty iterable,
otherwise folds keeping the first element of maximal key. -/
def pyMaxBy {α : Type} (value : α → Nat) (xs : List α) : Except PyErr α :=
  match xs with
  | [] => .error .valueError
  | x :: rest => .ok (rest.foldl (fun acc y => if value y > value acc then y else acc) x)

mutual

/-- The `fusion_style` attribute set by each subclass constructor.  For
`ProductSymmetry` this is groups.py line 132:
`max((f.fusion_style for f in factors), key=lambda style: style.value)`. -/
def Symmetry.fusion_style : Symmetry → Except PyErr FusionStyle
  | .noSymmetry => .ok .single
  | .zN _ => .ok .single
  | .u1 => .ok .single
  | .su2 => .ok .multiple_unique
  | .fermionParity => .ok .single
  | .productSymmetry factors =>
    match fusionStyleList factors with
    | .error e => .error e
    | .ok styles => pyMaxBy FusionStyle.value styles

/-- The factors' `fusion_style` attributes, in order. -/
def fusionStyleList : List Symmetry → Except PyErr (List FusionStyle)
  | [] => .ok []
  | f :: fs =>
    match Symmetry.fusion_style f with
    | .error e => .error e
    | .ok st =>
      match fusionStyleList fs with
      | .error e => .error e
      | .ok sts => .ok (st :: sts)

end

mutual

/-- The `braiding_style` attribute set by each subclass constructor.  For
`ProductSymmetry` this is groups.py line 133. -/
def Symmetry.braiding_style : Symmetry → Except PyErr BraidingStyle
  | .noSymmetry => .ok .bosonic
  | .zN _ => .ok .bosonic
  | .u1 => .ok .bosonic
  | .su2 => .ok .bosonic
  | .fermionParity => .ok .fermionic
  | .productSymmetry factors =>
    match braidingStyleList factors with
    | .error e => .error e
    | .ok styles => pyMaxBy BraidingStyle.value styles

/-- The factors' `braiding_style` attributes, in order. -/
def braidingStyleList : List Symmetry → Except PyErr (List BraidingStyle)
  | [] => .ok []
  | f :: fs =>
    match Symmetry.braiding_style f with
    | .error e => .error e
    | .ok st =>
      match braidingStyleList fs with
      | .error e => .error e
      | .ok sts => .ok (st :: sts)

end

mutual

/-- The `trivial_sector` attribute set by each subclass constructor.  For
`ProductSymmetry` this is groups.py line 134:
`[f.trivial_sector for f in factors]`. -/
def Symmetry.trivial_sector : Symmetry → PyVal
  | .noSymmetry => .none
  | .zN _ => .int 0
  | .u1 => .int 0
  | .su2 => .int 0
  | .fermionParity => .int 0
  | .productSymmetry factors => .list (trivialList factors)

/-- The factors' `trivial_sector` attributes, in order. -/
def trivialList : List Symmetry → List PyVal
  | [] => []
  | f :: fs => Symmetry.trivial_sector f :: trivialList fs

end

/-- The factor list used by `Symmetry.__mul__` (groups.py lines 66-81) for one
operand: a `ProductSymmetry` contributes its `factors`, any other `Symmetry`
contributes the one-element list of itself. -/
def Symmetry.factorsOf : Symmetry → List Symmetry
  | .productSymmetry fs => fs
  | s => [s]

/-- `Symmetry.__mul__`, groups.py lines 66-81: concatenates both operands'
factor lists and builds a `ProductSymmetry` of the result. -/
def Symmetry.mul (s other : Symmetry) : Symmetry :=
  .productSymmetry (s.factorsOf ++ other.factorsOf)

/-- Whether a symmetry is a `ProductSymmetry`. -/
def Symmetry.isProduct : Symmetry → Bool
  | .productSymmetry _ => true
  | _ => false

/-- A symmetry is flat when it is not a product of products: a
`ProductSymmetry` none of whose direct factors is itself a `ProductSymmetry`,
or any non-product symmetry. -/
def Symmetry.isFlat : Symmetry → Bool
  | .productSymmetry fs => fs.all fun f => !f.isProduct
  | _ => true

/-- A leg space of a tensor, as far as the matrix-operation code inspects it.
Modelled from the spec: `VectorSpace` lives in the symmetries module, which is
not part of this excerpt; spec section 3 describes a leg space as "a vector
space graded by sectors with multiplicities; supports a duality operation
(`is_dual_of`)".  We keep a dimension and a duality flag; `dual` toggles the
flag. -/
structure VectorSpace where
  dim : Nat
  is_dual : Bool
deriving DecidableEq, Repr

/-- The dual space of a leg space: same graded dimensions, opposite duality
flag (so that taking the dual twice is the identity). -/
def VectorSpace.dual (v : VectorSpace) : VectorSpace :=
  VectorSpace.mk v.dim (!v.is_dual)

/-- Modelled from the spec: `is_dual_of` (spec section 3) tests that the other
space is exactly the dual of this one. -/
def VectorSpace.is_dual_of (v w : VectorSpace) : Bool :=
  decide (v = w.dual)

/-- A tensor as consumed by matrix_operations.py: a numeric data handle of
some opaque type `α`, a list of legs, and one optional string label per leg.
(In the source the backend is an attribute of the tensor; here it is passed
to each operation explicitly, which breaks a type-level cycle but changes no
behaviour.) -/
structure Tensor (α : Type) where
  data : α
  legs : List VectorSpace
  labels : List (Option String)

/-- `Tensor.num_legs`. -/
def Tensor.num_legs {α : Type} (t : Tensor α) : Nat := t.legs.length

/-- One entry of a `legs1` / `legs2` argument: a leg position or a leg label
(the `int | str` union of the source annotations). -/
inductive LegSelector where
  | idx (n : Nat)
  | label (s : String)
deriving DecidableEq, Repr

/-- Python list indexing, raising `IndexError` when out of range. -/
def pyGetElem {β : Type} (xs : List β) (n : Nat) : Except PyErr β :=
  match xs[n]? with
  | some x => .ok x
  | Option.none => .error .indexError

/-- Modelled from the spec: `Tensor.get_leg_idcs` is defined in the tensors
module, which is not part of this excerpt.  Spec section 9: "Dynamic
leg-selection arguments (int-or-label unions): reimplement as an explicit
tagged union \x7bindex, label\x7d resolved once at the entry of
`leg_bipartition` into plain integer indices."  An index resolves to itself; a
label resolves to the position of the leg carrying that label, failing if no
leg does. -/
def Tensor.get_leg_idx {α : Type} (a : Tensor α) : LegSelector → Except PyErr Nat
  | .idx n => .ok n
  | .label s =>
    match a.labels.findIdx? (fun l => decide (l = some s)) with
    | some i => .ok i
    | Option.none => .error .valueError

/-- Resolution of a whole leg-selection list into plain indices, in order. -/
def Tensor.get_leg_idcs {α : Type} (a : Tensor α) :
    List LegSelector → Except PyErr (List Nat)
  | [] => .ok []
  | l :: ls =>
    match a.get_leg_idx l with
    | .error e => .error e
    | .ok i =>
      match a.get_leg_idcs ls with
      | .error e => .error e
      | .ok is => .ok (i :: is)

/-- `leg_bipartition`, matrix_operations.py lines 120-157. -/
def leg_bipartition {α : Type} (a : Tensor α)
    (legs1 legs2 : Option (List LegSelector)) :
    Except PyErr (List Nat × List Nat) :=
  match legs1, legs2 with
  | Option.none, Option.none =>
    if a.num_legs ≠ 2 then .error .valueError
    else .ok ([0], [1])
  | Option.none, some l2 =>
    match a.get_leg_idcs l2 with
    | .error e => .error e
    | .ok idcs2 =>
      .ok (((List.range a.num_legs).filter fun n => decide (n ∉ idcs2)), idcs2)
  | some l1, Option.none =>
    match a.get_leg_idcs l1 with
    | .error e => .error e
    | .ok idcs1 =>
      .ok (idcs1, (List.range a.num_legs).filter fun n => decide (n ∉ idcs1))
  | some l1, some l2 =>
    match a.get_leg_idcs l1 with
    | .error e => .error e
    | .ok idcs1 =>
      match a.get_leg_idcs l2 with
      | .error e => .error e
      | .ok idcs2 =>
        let in_both_lists := idcs1.filter fun l => decide (l ∈ idcs2)
        if in_both_lists ≠ [] then .error .valueError
        else
          let missing := (List.range a.num_legs).filter
            fun n => decide (n ∉ idcs1) && decide (n ∉ idcs2)
          if missing ≠ [] then .error .valueError
          else .ok (idcs1, idcs2)

/-- `_svd_new_labels`, matrix_operations.py lines 102-117: `None` means four
unset labels, a sequence of length 2 or 4 distributes onto
`(l_u, l_su, l_sv, l_vh)`, any other length raises `ValueError`. -/
def svd_new_labels (new_labels : Option (List String)) :
    Except PyErr (Option String × Option String × Option String × Option String) :=
  match new_labels with
  | Option.none => .ok (Option.none, Option.none, Option.none, Option.none)
  | some [x, y] => .ok (some x, some y, some x, some y)
  | some [x, y, z, w] => .ok (some x, some y, some z, some w)
  | some _ => .error .valueError

/-- The backend primitives reachable from matrix_operations.py, over block
data of type `α` (spec section 6).  `svd` returns the `u`, `s`, `vh` data and
the new leg; `exp` / `log` are the matrix-function primitives. -/
structure Backend (α : Type) where
  permute : α → List Nat → α
  svd : Tensor α → Bool → α × α × α × VectorSpace
  exp : Tensor α → List Nat → List Nat → α
  log : Tensor α → List Nat → List Nat → α

/-- Modelled from the spec: `Tensor.transpose` is defined in the tensors
module, which is not part of this excerpt; it permutes the legs and labels of
the tensor and its block data through the backend's permute-axes primitive
(spec section 6, "Structural ops: permute axes"). -/
def Tensor.transpose {α : Type} (permuteData : α → List Nat → α)
    (t : Tensor α) (perm : List Nat) : Tensor α :=
  Tensor.mk (permuteData t.data perm)
    (perm.map fun i => t.legs.getD i (VectorSpace.mk 0 false))
    (perm.map fun i => t.labels.getD i Option.none)

/-- The label list `[a.labels[n] for n in idcs]`. -/
def labelsAt {α : Type} (a : Tensor α) : List Nat → Except PyErr (List (Option String))
  | [] => .ok []
  | n :: ns =>
    match pyGetElem a.labels n with
    | .error e => .error e
    | .ok l =>
      match labelsAt a ns with
      | .error e => .error e
      | .ok ls => .ok (l :: ls)

/-- `svd`, matrix_operations.py lines 10-67 (for a plain `Tensor` input; other
representations raise `NotImplementedError` before this point).  When either
index group has more than one entry, line 51 executes
`a = a.combine_legs(u_idcs, v_idcs, new_axes=[0, 1])`: the name `v_idcs` is
defined nowhere in the function (the bipartition bound `vh_idcs`), so
evaluating the argument list raises `NameError` and the merge/split path never
runs.  The returned `S` is a `DiagonalTensor` in the source; its legs and
labels are modelled like any tensor's. -/
def svd {α : Type} (backend : Backend α) (a : Tensor α)
    (u_legs vh_legs : Option (List LegSelector))
    (new_labels : Option (List String)) (new_vh_leg_dual : Bool) :
    Except PyErr (Tensor α × Tensor α × Tensor α) :=
  match leg_bipartition a u_legs vh_legs with
  | .error e => .error e
  | .ok (u_idcs, vh_idcs) =>
    match svd_new_labels new_labels with
    | .error e => .error e
    | .ok (l_u, l_su, l_sv, l_vh) =>
      if u_idcs.length ≠ 1 ∨ vh_idcs.length ≠ 1 then
        .error .nameError
      else
        let a := if u_idcs.headD 0 = 1 then Tensor.transpose backend.permute a [1, 0] else a
        let res := backend.svd a new_vh_leg_dual
        match pyGetElem a.legs 0 with
        | .error e => .error e
        | .ok leg0 =>
          match labelsAt a u_idcs with
          | .error e => .error e
          | .ok u_labels =>
            match pyGetElem a.legs 1 with
            | .error e => .error e
            | .ok leg1 =>
              match labelsAt a vh_idcs with
              | .error e => .error e
              | .ok vh_labels =>
                let U := Tensor.mk res.1 [leg0, res.2.2.2.dual] (u_labels ++ [l_u])
                let S := Tensor.mk res.2.1 [res.2.2.2, res.2.2.2.dual] [l_su, l_sv]
                let Vh := Tensor.mk res.2.2.1 [res.2.2.2, leg1] ([l_vh] ++ vh_labels)
                .ok (U, S, Vh)

/-- matrix_operations.py lines 171 and 189: the call
`leg_bipartition(legs1, legs2)` passes two arguments to a function whose three
parameters `a`, `legs1`, `legs2` all lack defaults, so the Python call raises
`TypeError` ("missing 1 required positional argument") before the body of
`leg_bipartition` runs. -/
def leg_bipartition_missing_arg (legs1 legs2 : Option (List LegSelector)) :
    Except PyErr (List Nat × List Nat) :=
  .error .typeError

/-- The zipped duality assertion of exp/log, lines 173 and 191:
`all(t.legs[i1].is_dual_of(t.legs[i2]) for i1, i2 in zip(idcs1, idcs2))`. -/
def dualityZip {α : Type} (t : Tensor α) (idcs1 idcs2 : List Nat) : Bool :=
  (idcs1.zip idcs2).all fun p =>
    (t.legs.getD p.1 (VectorSpace.mk 0 false)).is_dual_of
      (t.legs.getD p.2 (VectorSpace.mk 0 false))

/-- `exp`, matrix_operations.py lines 160-175, restricted to `Tensor` input
(the scalar path calls `math.exp` and the non-`Tensor` path raises
`NotImplementedError`). -/
def exp {α : Type} (backend : Backend α) (t : Tensor α)
    (legs1 legs2 : Option (List LegSelector)) : Except PyErr (Tensor α) :=
  match leg_bipartition_missing_arg legs1 legs2 with
  | .error e => .error e
  | .ok (idcs1, idcs2) =>
    if idcs1.length ≠ idcs2.length then .error .assertionError
    else if dualityZip t idcs1 idcs2 then
      .ok (Tensor.mk (backend.exp t idcs1 idcs2) t.legs t.labels)
    else .error .assertionError

/-- `log`, matrix_operations.py lines 178-193, restricted to `Tensor` input;
identical control flow to `exp` with the backend's log primitive. -/
def log {α : Type} (backend : Backend α) (t : Tensor α)
    (legs1 legs2 : Option (List LegSelector)) : Except PyErr (Tensor α) :=
  match leg_bipartition_missing_arg legs1 legs2 with
  | .error e => .error e
  | .ok (idcs1, idcs2) =>
    if idcs1.length ≠ idcs2.length then .error .assertionError
    else if dualityZip t idcs1 idcs2 then
      .ok (Tensor.mk (backend.log t idcs1 idcs2) t.legs t.labels)
    else .error .assertionError

/-! ## Theorems -/

/-- `n % 1 = 0`, so the `qmod = 1` instance (`U1Symmetry`) collapses every
fusion outcome to the single sector `0`. -/
theorem qmod_one_fusion (a b : Int) :
    QmodGroup.fusion_outcomes 1 (.int a) (.int b) = .ok (.list [.int 0]) := by
  simp [QmodGroup.fusion_outcomes, pyAdd, pyMod, Int.emod_one]

/-- `(-n) % 1 = 0`, so the `qmod = 1` instance collapses every dual sector
to `0`. -/
theorem qmod_one_dual (a : Int) :
    QmodGroup.dual_sector 1 (.int a) = .ok (.int 0) := by
  simp [QmodGroup.dual_sector, pyNeg, pyMod, Int.emod_one]

/-- C1: the claim states that for `U1Symmetry`, `fusion_outcomes(a, b)` is
`[a + b]` and `dual_sector(a)` is `-a`.  The code computes
`[(a + b) % self.qmod]` and `(-a) % self.qmod` with `qmod = 1`, and `x % 1`
is `0` in Python, so both collapse to `0` for every integer sector: at
`a = 1, b = 2` fusion returns `[0]`, not `[3]`, and `dual_sector(1)` returns
`0`, not `-1`.  This contradicts the claim (and the `QmodGroup` docstring,
which says `qmod = 1` means "no modulo"). -/
theorem u1_fusion_dual_collapse :
    (∀ a b : Int, Symmetry.fusion_outcomes .u1 (.int a) (.int b) = .ok (.list [.int 0])) ∧
    (∀ a : Int, Symmetry.dual_sector .u1 (.int a) = .ok (.int 0)) ∧
    Symmetry.fusion_outcomes .u1 (.int 1) (.int 2) ≠ .ok (.list [.int 3]) ∧
    Symmetry.dual_sector .u1 (.int 1) ≠ .ok (.int (-1)) := by
  refine ⟨fun a b => qmod_one_fusion a b, fun a => qmod_one_dual a, ?_, ?_⟩
  · rw [show Symmetry.fusion_outcomes .u1 (.int 1) (.int 2) = .ok (.list [.int 0]) from
      qmod_one_fusion 1 2]
    intro h
    exact absurd (by injection h) (by decide)
  · rw [show Symmetry.dual_sector .u1 (.int 1) = .ok (.int 0) from qmod_one_dual 1]
    intro h
    exact absurd (by injection h) (by decide)

/-- C2: the claim states `dual_sector(dual_sector(a)) == a` for every valid
sector of every variant.  For `U1Symmetry` the sector `1` is valid, but
`dual_sector` maps it to `(-1) % 1 = 0` and maps `0` to `0`, so the double
dual of `1` is `0 ≠ 1`. -/
theorem u1_dual_not_involutive :
    Symmetry.is_valid_sector .u1 (.int 1) = .ok true ∧
    (Symmetry.dual_sector .u1 (.int 1)).bind (Symmetry.dual_sector .u1) = .ok (.int 0) ∧
    PyVal.int 0 ≠ PyVal.int 1 :=
  ⟨rfl, rfl, by decide⟩

/-- C3: the claim states that `exp` / `log` validate the duality precondition
and on success return a tensor with the input's legs and labels.  But
matrix_operations.py lines 171/189 call `leg_bipartition(legs1, legs2)` with a
missing required argument, so for every tensor input, every leg selection and
every backend, both functions raise `TypeError` before any validation or
backend call, and never return a tensor. -/
theorem exp_log_always_raise (α : Type) (backend : Backend α) (t : Tensor α)
    (legs1 legs2 : Option (List LegSelector)) :
    exp backend t legs1 legs2 = .error .typeError ∧
    log backend t legs1 legs2 = .error .typeError :=
  ⟨rfl, rfl⟩

/-- C4: the claim states that when a resolved leg group has more than one leg,
`svd` merges the group, factorises, and splits the merged legs back.  But the
merge call at matrix_operations.py line 51 references the undefined name
`v_idcs`, so that branch raises `NameError`: for a three-leg tensor with
`u_legs = [0, 1]` (resolved groups `[0, 1]` and `[2]`), `svd` fails for every
backend instead of merging. -/
theorem svd_multileg_raises (α : Type) (backend : Backend α) (d : α) :
    svd backend
      (Tensor.mk d [VectorSpace.mk 2 false, VectorSpace.mk 2 true, VectorSpace.mk 3 false]
        [Option.none, Option.none, Option.none])
      (some [.idx 0, .idx 1]) Option.none Option.none false = .error .nameError :=
  rfl

/-- C6: the claim states `is_valid_sector` is total and returns `False` on
malformed input of unrelated type.  `ZNSymmetry` and `SU2Symmetry` do return
`False` on non-integers, but `ProductSymmetry.is_valid_sector` evaluates
`len(a)` *outside* its `try`/`except TypeError` block (groups.py line 140), so
a plain integer argument raises `TypeError` instead of returning `False`. -/
theorem product_is_valid_raises :
    Symmetry.is_valid_sector (.productSymmetry [.u1]) (.int 0) = .error .typeError ∧
    Symmetry.is_valid_sector (.zN 3) (.str "x") = .ok false ∧
    Symmetry.is_valid_sector .su2 PyVal.none = .ok false :=
  ⟨rfl, rfl, rfl⟩

/-- C8: `FermionParity.fusion_outcomes(a, b)` returns parity `0` for equal and
`1` for unequal sectors in `{0, 1}`, as the single bare integer `int(a != b)`
rather than a list of sectors. -/
theorem fermion_parity_fusion_bare (a b : Int)
    (ha : a = 0 ∨ a = 1) (hb : b = 0 ∨ b = 1) :
    (a = b → Symmetry.fusion_outcomes .fermionParity (.int a) (.int b) = .ok (.int 0)) ∧
    (a ≠ b → Symmetry.fusion_outcomes .fermionParity (.int a) (.int b) = .ok (.int 1)) ∧
    (∀ xs, Symmetry.fusion_outcomes .fermionParity (.int a) (.int b) ≠ .ok (.list xs)) := by
  refine ⟨fun h => ?_, fun h => ?_, fun xs h => ?_⟩
  · simp [Symmetry.fusion_outcomes, FermionParity.fusion_outcomes, h]
  · simp only [Symmetry.fusion_outcomes, FermionParity.fusion_outcomes]
    rw [if_neg (fun hh => h (by injection hh))]
  · rcases ha with rfl | rfl <;> rcases hb with rfl | rfl <;>
      simp [Symmetry.fusion_outcomes, FermionParity.fusion_outcomes] at h

/-- Witness for C8 at the concrete sectors `a = 0`, `b = 1`. -/
theorem fermion_parity_fusion_bare_witness :
    ((0:Int) = 0 ∨ (0:Int) = 1) ∧ ((1:Int) = 0 ∨ (1:Int) = 1) ∧
    Symmetry.fusion_outcomes .fermionParity (.int 0) (.int 1) = .ok (.int 1) ∧
    (∀ xs, Symmetry.fusion_outcomes .fermionParity (.int 0) (.int 1) ≠ .ok (.list xs)) :=
  ⟨Or.inl rfl, Or.inr rfl,
    (fermion_parity_fusion_bare 0 1 (Or.inl rfl) (Or.inr rfl)).2.1 (by decide),
    (fermion_parity_fusion_bare 0 1 (Or.inl rfl) (Or.inr rfl)).2.2⟩

/-- The fold inside `pyMaxBy` returns either the accumulator or a list
element, and its key dominates the accumulator's and every element's key. -/
theorem foldl_max_spec {α : Type} (value : α → Nat) :
    ∀ (xs : List α) (acc : α),
      ((xs.foldl (fun acc y => if value y > value acc then y else acc) acc) = acc ∨
        (xs.foldl (fun acc y => if value y > value acc then y else acc) acc) ∈ xs) ∧
      value acc ≤ value (xs.foldl (fun acc y => if value y > value acc then y else acc) acc) ∧
      ∀ y ∈ xs, value y ≤ value (xs.foldl (fun acc y => if value y > value acc then y else acc) acc)
  | [], acc => ⟨Or.inl rfl, le_refl _, fun y hy => absurd hy (List.not_mem_nil y)⟩
  | x :: xs, acc => by
    have ih := foldl_max_spec value xs (if value x > value acc then x else acc)
    simp only [List.foldl_cons]
    refine ⟨?_, ?_, ?_⟩
    · rcases ih.1 with h | h
      · rw [h]
        split
        · exact Or.inr (List.mem_cons_self x xs)
        · exact Or.inl rfl
      · exact Or.inr (List.mem_cons_of_mem x h)
    · refine le_trans ?_ ih.2.1
      split
      · omega
      · exact le_refl _
    · intro y hy
      rcases List.mem_cons.mp hy with rfl | hy
      · refine le_trans ?_ ih.2.1
        split
        · exact le_refl _
        · omega
      · exact ih.2.2 y hy

/-- `pyMaxBy` on a non-empty list returns a member whose key is maximal. -/
theorem pyMaxBy_spec {α : Type} (value : α → Nat) (xs : List α) (hne : xs ≠ []) :
    ∃ m, pyMaxBy value xs = .ok m ∧ m ∈ xs ∧ ∀ y ∈ xs, value y ≤ value m := by
  match xs with
  | [] => exact absurd rfl hne
  | x :: rest =>
    have h := foldl_max_spec value rest x
    refine ⟨_, rfl, ?_, ?_⟩
    · rcases h.1 with heq | hmem
      · rw [heq]; exact List.mem_cons_self x rest
      · exact List.mem_cons_of_mem x hmem
    · intro y hy
      rcases List.mem_cons.mp hy with rfl | hy
      · exact h.2.1
      · exact h.2.2 y hy

/-- `fusionStyleList` produces one style per factor. -/
theorem fusionStyleList_length :
    ∀ (fs : List Symmetry) (sts : List FusionStyle),
      fusionStyleList fs = .ok sts → sts.length = fs.length
  | [], sts, h => by
    simp only [fusionStyleList] at h
    cases h
    rfl
  | f :: fs, sts, h => by
    simp only [fusionStyleList] at h
    cases hf : Symmetry.fusion_style f with
    | error e => rw [hf] at h; cases h
    | ok st =>
      rw [hf] at h
      cases hfs : fusionStyleList fs with
      | error e => rw [hfs] at h; cases h
      | ok sts2 =>
        rw [hfs] at h
        cases h
        simp [fusionStyleList_length fs sts2 hfs]

/-- `braidingStyleList` produces one style per factor. -/
theorem braidingStyleList_length :
    ∀ (fs : List Symmetry) (sts : List BraidingStyle),
      braidingStyleList fs = .ok sts → sts.length = fs.length
  | [], sts, h => by
    simp only [braidingStyleList] at h
    cases h
    rfl
  | f :: fs, sts, h => by
    simp only [braidingStyleList] at h
    cases hf : Symmetry.braiding_style f with
    | error e => rw [hf] at h; cases h
    | ok st =>
      rw [hf] at h
      cases hfs : braidingStyleList fs with
      | error e => rw [hfs] at h; cases h
      | ok sts2 =>
        rw [hfs] at h
        cases h
        simp [braidingStyleList_length fs sts2 hfs]

/-- `trivialList` is the list of the factors' trivial sectors. -/
theorem trivialList_eq_map :
    ∀ fs : List Symmetry, trivialList fs = fs.map Symmetry.trivial_sector
  | [] => rfl
  | f :: fs => by simp [trivialList, trivialList_eq_map fs]

/-- C9: every `ProductSymmetry` has `fusion_style` / `braiding_style` equal to
the maximum (by classification `value`) of its factors' styles and
`trivial_sector` equal to the tuple of the factors' trivial sectors; and the
`*` operator always yields a `ProductSymmetry` whose factor list is the
concatenation of both operands' factor lists (flat whenever the operands are),
so combination is associative. -/
theorem product_symmetry_construction
    (factors : List Symmetry) (styles : List FusionStyle) (bstyles : List BraidingStyle)
    (hne : factors ≠ [])
    (hf : fusionStyleList factors = .ok styles)
    (hb : braidingStyleList factors = .ok bstyles) :
    (∃ st, Symmetry.fusion_style (.productSymmetry factors) = .ok st ∧
      st ∈ styles ∧ ∀ s ∈ styles, s.value ≤ st.value) ∧
    (∃ bt, Symmetry.braiding_style (.productSymmetry factors) = .ok bt ∧
      bt ∈ bstyles ∧ ∀ s ∈ bstyles, s.value ≤ bt.value) ∧
    Symmetry.trivial_sector (.productSymmetry factors) =
      .list (factors.map Symmetry.trivial_sector) ∧
    (∀ s o : Symmetry, Symmetry.mul s o =
      .productSymmetry (s.factorsOf ++ o.factorsOf)) ∧
    (∀ s o : Symmetry, s.isFlat = true → o.isFlat = true →
      (Symmetry.mul s o).isProduct = true ∧ (Symmetry.mul s o).isFlat = true) ∧
    (∀ s o p : Symmetry,
      Symmetry.mul (Symmetry.mul s o) p = Symmetry.mul s (Symmetry.mul o p)) := by
  have hstne : styles ≠ [] := by
    intro h
    apply hne
    have := fusionStyleList_length factors styles hf
    rw [h] at this
    exact List.eq_nil_of_length_eq_zero this.symm
  have hbtne : bstyles ≠ [] := by
    intro h
    apply hne
    have := braidingStyleList_length factors bstyles hb
    rw [h] at this
    exact List.eq_nil_of_length_eq_zero this.symm
  refine ⟨?_, ?_, ?_, ?_, ?_, ?_⟩
  · obtain ⟨m, hm, hmem, hmax⟩ := pyMaxBy_spec FusionStyle.value styles hstne
    refine ⟨m, ?_, hmem, hmax⟩
    simp only [Symmetry.fusion_style, hf]
    exact hm
  · obtain ⟨m, hm, hmem, hmax⟩ := pyMaxBy_spec BraidingStyle.value bstyles hbtne
    refine ⟨m, ?_, hmem, hmax⟩
    simp only [Symmetry.braiding_style, hb]
    exact hm
  · simp [Symmetry.trivial_sector, trivialList_eq_map]
  · intro s o
    rfl
  · intro s o hs ho
    refine ⟨rfl, ?_⟩
    simp only [Symmetry.mul, Symmetry.isFlat, List.all_append, Bool.and_eq_true]
    constructor
    · cases s with
      | productSymmetry fs => exact hs
      | noSymmetry => rfl
      | zN N => rfl
      | u1 => rfl
      | su2 => rfl
      | fermionParity => rfl
    · cases o with
      | productSymmetry fs => exact ho
      | noSymmetry => rfl
      | zN N => rfl
      | u1 => rfl
      | su2 => rfl
      | fermionParity => rfl
  · intro s o p
    simp only [Symmetry.mul, Symmetry.factorsOf, List.append_assoc]

/-- Witness for C9 at the concrete factor list `[U(1), SU(2), FermionParity]`
(styles `[single, multiple_unique, single]` and
`[bosonic, bosonic, fermionic]`). -/
theorem product_symmetry_construction_witness :
    ([Symmetry.u1, Symmetry.su2, Symmetry.fermionParity] ≠ ([] : List Symmetry)) ∧
    fusionStyleList [Symmetry.u1, Symmetry.su2, Symmetry.fermionParity] =
      .ok [.single, .multiple_unique, .single] ∧
    braidingStyleList [Symmetry.u1, Symmetry.su2, Symmetry.fermionParity] =
      .ok [.bosonic, .bosonic, .fermionic] ∧
    (∃ st, Symmetry.fusion_style
        (.productSymmetry [Symmetry.u1, Symmetry.su2, Symmetry.fermionParity]) = .ok st ∧
      st ∈ [FusionStyle.single, .multiple_unique, .single] ∧
      ∀ s ∈ [FusionStyle.single, .multiple_unique, .single], s.value ≤ st.value) :=
  by
  constructor
  · exact List.cons_ne_nil _ _
  constructor
  · rfl
  constructor
  · rfl
  exact (product_symmetry_construction [Symmetry.u1, Symmetry.su2, Symmetry.fermionParity]
    [FusionStyle.single, FusionStyle.multiple_unique, FusionStyle.single]
    [BraidingStyle.bosonic, BraidingStyle.bosonic, BraidingStyle.fermionic]
    (List.cons_ne_nil _ _) rfl rfl).1

/-- `QmodGroup` fusion is commutative on integer sectors. -/
theorem qmod_fusion_comm (q : Nat) (m n : Int) :
    QmodGroup.fusion_outcomes q (.int m) (.int n) =
      QmodGroup.fusion_outcomes q (.int n) (.int m) := by
  simp [QmodGroup.fusion_outcomes, pyAdd, Int.add_comm m n]

/-- `SU2Symmetry` fusion is commutative on integer sectors: the
Clebsch-Gordan range is symmetric in the two spins. -/
theorem su2_fusion_comm (m n : Int) :
    SU2Symmetry.fusion_outcomes (.int m) (.int n) =
      SU2Symmetry.fusion_outcomes (.int n) (.int m) := by
  have h1 : (m - n).natAbs = (n - m).natAbs := by omega
  have h2 : m + n + 2 = n + m + 2 := by ring
  simp only [SU2Symmetry.fusion_outcomes, h1, h2]

/-- `FermionParity` fusion is commutative (on all Python values, since `!=`
is symmetric). -/
theorem fermion_fusion_comm (a b : PyVal) :
    FermionParity.fusion_outcomes a b = FermionParity.fusion_outcomes b a := by
  simp only [FermionParity.fusion_outcomes]
  by_cases h : a = b
  · simp [h]
  · rw [if_neg h, if_neg (fun hh => h hh.symm)]

/-- A valid `QmodGroup` sector is an integer. -/
theorem qmod_valid_int (q : Nat) :
    ∀ a : PyVal, QmodGroup.is_valid_sector q a = true → ∃ n, a = PyVal.int n
  | .int n, _ => ⟨n, rfl⟩
  | .none, h => by simp [QmodGroup.is_valid_sector] at h
  | .str _, h => by simp [QmodGroup.is_valid_sector] at h
  | .list _, h => by simp [QmodGroup.is_valid_sector] at h

/-- A valid `SU2Symmetry` sector is an integer. -/
theorem su2_valid_int :
    ∀ a : PyVal, SU2Symmetry.is_valid_sector a = true → ∃ n, a = PyVal.int n
  | .int n, _ => ⟨n, rfl⟩
  | .none, h => by simp [SU2Symmetry.is_valid_sector] at h
  | .str _, h => by simp [SU2Symmetry.is_valid_sector] at h
  | .list _, h => by simp [SU2Symmetry.is_valid_sector] at h

/-- Validity of a `ProductSymmetry` sector yields the element list, the
length match and element-wise validity of the zipped prefix. -/
theorem product_valid_parts (fs : List Symmetry) (a : PyVal)
    (h : Symmetry.is_valid_sector (.productSymmetry fs) a = .ok true) :
    ∃ xs, pyIter a = .ok xs ∧ xs.length = fs.length ∧ validList fs xs = .ok true := by
  simp only [Symmetry.is_valid_sector] at h
  cases hia : pyIter a with
  | error e => rw [hia] at h; cases h
  | ok xs =>
    rw [hia] at h
    refine ⟨xs, rfl, ?_⟩
    have h2 : (if xs.length ≠ fs.length then (Except.ok false : Except PyErr Bool)
        else match validList fs xs with
          | .error .typeError => .ok false
          | .error e => .error e
          | .ok b => .ok b) = .ok true := h
    by_cases hlen : xs.length = fs.length
    · rw [if_neg (show ¬xs.length ≠ fs.length from fun hh => hh hlen)] at h2
      refine ⟨hlen, ?_⟩
      cases hv : validList fs xs with
      | error e =>
        rw [hv] at h2
        cases e <;> cases h2
      | ok bv =>
        rw [hv] at h2
        cases bv with
        | false => cases h2
        | true => rfl
    · rw [if_pos hlen] at h2
      cases h2

mutual

/-- Fusion of each `Symmetry` variant is commutative on valid sectors
(helper for the claim theorem, proved by mutual induction with
`fusionListCommAux`). -/
theorem fusionCommAux : ∀ (sym : Symmetry) (a b : PyVal),
    Symmetry.is_valid_sector sym a = .ok true →
    Symmetry.is_valid_sector sym b = .ok true →
    Symmetry.fusion_outcomes sym a b = Symmetry.fusion_outcomes sym b a
  | .noSymmetry, _, _, _, _ => rfl
  | .zN N, a, b, ha, hb => by
    obtain ⟨m, rfl⟩ := qmod_valid_int _ a (by simpa [Symmetry.is_valid_sector] using ha)
    obtain ⟨n, rfl⟩ := qmod_valid_int _ b (by simpa [Symmetry.is_valid_sector] using hb)
    exact qmod_fusion_comm _ m n
  | .u1, a, b, ha, hb => by
    obtain ⟨m, rfl⟩ := qmod_valid_int 1 a (by simpa [Symmetry.is_valid_sector] using ha)
    obtain ⟨n, rfl⟩ := qmod_valid_int 1 b (by simpa [Symmetry.is_valid_sector] using hb)
    exact qmod_fusion_comm 1 m n
  | .su2, a, b, ha, hb => by
    obtain ⟨m, rfl⟩ := su2_valid_int a (by simpa [Symmetry.is_valid_sector] using ha)
    obtain ⟨n, rfl⟩ := su2_valid_int b (by simpa [Symmetry.is_valid_sector] using hb)
    exact su2_fusion_comm m n
  | .fermionParity, a, b, _, _ => fermion_fusion_comm a b
  | .productSymmetry fs, a, b, ha, hb => by
    obtain ⟨xs, hia, _, hvx⟩ := product_valid_parts fs a ha
    obtain ⟨ys, hib, _, hvy⟩ := product_valid_parts fs b hb
    simp only [Symmetry.fusion_outcomes, hia, hib, fusionListCommAux fs xs ys hvx hvy]

/-- The zipped per-factor fusion outcomes are commutative when both element
lists are valid for the factors. -/
theorem fusionListCommAux : ∀ (fs : List Symmetry) (as bs : List PyVal),
    validList fs as = .ok true → validList fs bs = .ok true →
    fusionList fs as bs = fusionList fs bs as
  | [], as, bs, _, _ => by cases as <;> cases bs <;> rfl
  | _ :: _, [], bs, _, _ => by cases bs <;> rfl
  | _ :: _, _ :: _, [], _, _ => rfl
  | f :: fs, x :: xs, y :: ys, ha, hb => by
    simp only [validList] at ha hb
    have hx : Symmetry.is_valid_sector f x = .ok true ∧ validList fs xs = .ok true := by
      cases hfx : Symmetry.is_valid_sector f x with
      | error e => rw [hfx] at ha; cases ha
      | ok bv =>
        rw [hfx] at ha
        cases bv with
        | false => cases ha
        | true => exact ⟨rfl, ha⟩
    have hy : Symmetry.is_valid_sector f y = .ok true ∧ validList fs ys = .ok true := by
      cases hfy : Symmetry.is_valid_sector f y with
      | error e => rw [hfy] at hb; cases hb
      | ok bv =>
        rw [hfy] at hb
        cases bv with
        | false => cases hb
        | true => exact ⟨rfl, hb⟩
    simp only [fusionList, fusionCommAux f x y hx.1 hy.1,
      fusionListCommAux fs xs ys hx.2 hy.2]

end

/-- C10: for every `Symmetry` variant and all valid sectors `a`, `b`, fusion
is commutative: `fusion_outcomes(a, b)` equals `fusion_outcomes(b, a)`
(including the error behaviour, which is also symmetric). -/
theorem fusion_outcomes_commutative (sym : Symmetry) (a b : PyVal)
    (ha : Symmetry.is_valid_sector sym a = .ok true)
    (hb : Symmetry.is_valid_sector sym b = .ok true) :
    Symmetry.fusion_outcomes sym a b = Symmetry.fusion_outcomes sym b a :=
  fusionCommAux sym a b ha hb

/-- Witness for C10 at the product symmetry `ZN(3) x SU(2)` with the valid
sectors `[2, 1]` and `[1, 2]`. -/
theorem fusion_outcomes_commutative_witness :
    Symmetry.is_valid_sector (.productSymmetry [.zN 3, .su2]) (.list [.int 2, .int 1]) =
      .ok true ∧
    Symmetry.is_valid_sector (.productSymmetry [.zN 3, .su2]) (.list [.int 1, .int 2]) =
      .ok true ∧
    Symmetry.fusion_outcomes (.productSymmetry [.zN 3, .su2])
        (.list [.int 2, .int 1]) (.list [.int 1, .int 2]) =
      Symmetry.fusion_outcomes (.productSymmetry [.zN 3, .su2])
        (.list [.int 1, .int 2]) (.list [.int 2, .int 1]) := by
  refine ⟨rfl, rfl, ?_⟩
  exact fusion_outcomes_commutative (.productSymmetry [.zN 3, .su2])
    (.list [.int 2, .int 1]) (.list [.int 1, .int 2]) rfl rfl

/-- C7: `leg_bipartition` returns `([0], [1])` when both groups are `None`
and the tensor has exactly two legs, and a shape `ValueError` for any other
leg count; one omitted group is inferred as all remaining legs in ascending
index order; with both groups explicit it fails exactly when the groups
overlap or fail to cover every leg, and otherwise returns the resolved
groups. -/
theorem leg_bipartition_spec (α : Type) (a : Tensor α) (l1 l2 : List LegSelector)
    (idcs1 idcs2 : List Nat)
    (h1 : a.get_leg_idcs l1 = .ok idcs1) (h2 : a.get_leg_idcs l2 = .ok idcs2) :
    (a.num_legs = 2 → leg_bipartition a Option.none Option.none = .ok ([0], [1])) ∧
    (a.num_legs ≠ 2 → leg_bipartition a Option.none Option.none = .error .valueError) ∧
    (∃ rest, leg_bipartition a (some l1) Option.none = .ok (idcs1, rest) ∧
      (∀ n, n ∈ rest ↔ n < a.num_legs ∧ n ∉ idcs1) ∧ List.Pairwise (· < ·) rest) ∧
    (∃ rest, leg_bipartition a Option.none (some l2) = .ok (rest, idcs2) ∧
      (∀ n, n ∈ rest ↔ n < a.num_legs ∧ n ∉ idcs2) ∧ List.Pairwise (· < ·) rest) ∧
    (leg_bipartition a (some l1) (some l2) = .error .valueError ↔
      ((∃ n, n ∈ idcs1 ∧ n ∈ idcs2) ∨
        (∃ n, n < a.num_legs ∧ n ∉ idcs1 ∧ n ∉ idcs2))) ∧
    ((∀ n, n ∈ idcs1 → n ∉ idcs2) → (∀ n, n < a.num_legs → n ∈ idcs1 ∨ n ∈ idcs2) →
      leg_bipartition a (some l1) (some l2) = .ok (idcs1, idcs2)) := by
  have hboth : leg_bipartition a (some l1) (some l2) =
      (if idcs1.filter (fun l => decide (l ∈ idcs2)) ≠ [] then .error .valueError
       else if ((List.range a.num_legs).filter
           fun n => decide (n ∉ idcs1) && decide (n ∉ idcs2)) ≠ [] then .error .valueError
       else .ok (idcs1, idcs2)) := by
    simp only [leg_bipartition, h1, h2]
  have hA : (idcs1.filter (fun l => decide (l ∈ idcs2)) ≠ []) ↔
      ∃ n, n ∈ idcs1 ∧ n ∈ idcs2 := by
    rw [Ne, List.filter_eq_nil_iff]
    push_neg
    simp
  have hB : (((List.range a.num_legs).filter
      fun n => decide (n ∉ idcs1) && decide (n ∉ idcs2)) ≠ []) ↔
      ∃ n, n < a.num_legs ∧ n ∉ idcs1 ∧ n ∉ idcs2 := by
    rw [Ne, List.filter_eq_nil_iff]
    push_neg
    simp [List.mem_range]
  refine ⟨?_, ?_, ?_, ?_, ?_, ?_⟩
  · intro h
    simp [leg_bipartition, h]
  · intro h
    simp [leg_bipartition, h]
  · refine ⟨(List.range a.num_legs).filter fun n => decide (n ∉ idcs1), ?_, ?_, ?_⟩
    · simp only [leg_bipartition, h1]
    · intro n
      simp [List.mem_filter, List.mem_range]
    · exact List.Pairwise.filter _ (List.pairwise_lt_range a.num_legs)
  · refine ⟨(List.range a.num_legs).filter fun n => decide (n ∉ idcs2), ?_, ?_, ?_⟩
    · simp only [leg_bipartition, h2]
    · intro n
      simp [List.mem_filter, List.mem_range]
    · exact List.Pairwise.filter _ (List.pairwise_lt_range a.num_legs)
  · constructor
    · intro herr
      by_cases hov : ∃ n, n ∈ idcs1 ∧ n ∈ idcs2
      · exact Or.inl hov
      · refine Or.inr ?_
        rw [hboth, if_neg (fun hh => hov (hA.mp hh))] at herr
        by_cases hmi : ∃ n, n < a.num_legs ∧ n ∉ idcs1 ∧ n ∉ idcs2
        · exact hmi
        · rw [if_neg (fun hh => hmi (hB.mp hh))] at herr
          cases herr
    · intro hor
      rw [hboth]
      rcases hor with hov | hmi
      · rw [if_pos (hA.mpr hov)]
      · by_cases hov2 : idcs1.filter (fun l => decide (l ∈ idcs2)) ≠ []
        · rw [if_pos hov2]
        · rw [if_neg hov2, if_pos (hB.mpr hmi)]
  · intro hdisj hcov
    rw [hboth, if_neg (fun hh => ?_), if_neg (fun hh => ?_)]
    · obtain ⟨n, hn, hn1, hn2⟩ := hB.mp hh
      rcases hcov n hn with h | h
      · exact hn1 h
      · exact hn2 h
    · obtain ⟨n, hn1, hn2⟩ := hA.mp hh
      exact hdisj n hn1 hn2

/-- Witness for C7 on a four-leg tensor with `legs1 = [1]` and explicit
groups `[1]` / `[0, 2, 3]`: the inferred complement is `[0, 2, 3]`, in
ascending order, exactly as in the spec's example. -/
theorem leg_bipartition_spec_witness :
    (Tensor.mk () [VectorSpace.mk 2 false, VectorSpace.mk 2 true,
        VectorSpace.mk 2 false, VectorSpace.mk 2 true]
        [Option.none, Option.none, Option.none, Option.none]).get_leg_idcs
      [LegSelector.idx 1] = .ok [1] ∧
    (Tensor.mk () [VectorSpace.mk 2 false, VectorSpace.mk 2 true,
        VectorSpace.mk 2 false, VectorSpace.mk 2 true]
        [Option.none, Option.none, Option.none, Option.none]).get_leg_idcs
      [LegSelector.idx 0, LegSelector.idx 2, LegSelector.idx 3] = .ok [0, 2, 3] ∧
    leg_bipartition (Tensor.mk () [VectorSpace.mk 2 false, VectorSpace.mk 2 true,
        VectorSpace.mk 2 false, VectorSpace.mk 2 true]
        [Option.none, Option.none, Option.none, Option.none])
      (some [LegSelector.idx 1]) Option.none = .ok ([1], [0, 2, 3]) ∧
    (∃ rest, leg_bipartition (Tensor.mk () [VectorSpace.mk 2 false, VectorSpace.mk 2 true,
        VectorSpace.mk 2 false, VectorSpace.mk 2 true]
        [Option.none, Option.none, Option.none, Option.none])
      (some [LegSelector.idx 1]) Option.none = .ok ([1], rest) ∧
      (∀ n, n ∈ rest ↔ n < (Tensor.mk () [VectorSpace.mk 2 false, VectorSpace.mk 2 true,
          VectorSpace.mk 2 false, VectorSpace.mk 2 true]
          [Option.none, Option.none, Option.none, Option.none]).num_legs ∧ n ∉ [1]) ∧
      List.Pairwise (· < ·) rest) := by
  refine ⟨rfl, rfl, rfl, ?_⟩
  exact (leg_bipartition_spec Unit
    (Tensor.mk () [VectorSpace.mk 2 false, VectorSpace.mk 2 true,
      VectorSpace.mk 2 false, VectorSpace.mk 2 true]
      [Option.none, Option.none, Option.none, Option.none])
    [LegSelector.idx 1] [LegSelector.idx 0, LegSelector.idx 2, LegSelector.idx 3]
    [1] [0, 2, 3] rfl rfl).2.2.1
